import Mathlib

/-!
Verification development for the audio-performance comparator of the guscorp
repository (src/lessons/audio_compare.py).

Modelling conventions:
* IEEE floating-point values and arithmetic are modelled as exact real
  arithmetic over ℝ (every concrete float is a rational, embedded in ℝ);
  transcendental library calls (np.exp, np.log2, np.sqrt) are modelled by the
  corresponding real functions.
* numpy arrays are modelled as Lean lists; np.mean l is l.sum / l.length.
  numpy's mean of an empty array is NaN (with a RuntimeWarning); the theorems
  below never rely on the value of mean [] (hypotheses exclude those cases,
  and the one empty-mean situation a claim touches coincides with a raising
  np.max call, which is modelled at the Option level).
* a Python function that can raise an uncaught exception is modelled as an
  Option-valued function, none standing for the raised exception.
-/

open Classical

/-- np.clip x lo hi, as used throughout calculate_performance_score. -/
noncomputable def clip (x lo hi : ℝ) : ℝ := min (max x lo) hi

/-- np.mean over a list: sum divided by length (NaN caveat for [] noted above). -/
noncomputable def mean (l : List ℝ) : ℝ := l.sum / l.length

/-- np.max over a list; np.max raises ValueError on an empty array, and every
use below is guarded so that the [] case is only reached where the surrounding
Option-level model already returned none or a fixed branch. -/
noncomputable def npMax : List ℝ → ℝ
  | [] => 0
  | h :: t => t.foldl max h

/-- hz_to_cents from compare_audio (src/lessons/audio_compare.py line 233):
1200 * log2(freq / 440) + 6900. -/
noncomputable def hz_to_cents (freq : ℝ) : ℝ := 1200 * Real.logb 2 (freq / 440) + 6900

/-- Per-pair pitch score from calculate_performance_score line 314:
np.clip(1 - pitch_error / 100, 0, 1) * 100 applied to one absolute difference. -/
noncomputable def pitchScore (d : ℝ) : ℝ := clip (1 - |d| / 100) 0 1 * 100

/-- pitch_accuracy local of calculate_performance_score (lines 313-315):
mean of the per-pair scores over the retained pitch differences. -/
noncomputable def pitchAccuracy (pitch_diffs : List ℝ) : ℝ :=
  mean (pitch_diffs.map pitchScore)

/-- np.diff(wp, axis=0): consecutive differences of the warping-path entries. -/
def pathDiffs : List (ℤ × ℤ) → List (ℤ × ℤ)
  | a :: b :: t => (b.1 - a.1, b.2 - a.2) :: pathDiffs (b :: t)
  | _ => []

/-- timing_deviations.mean(axis=0) first component: mean over steps of
the absolute deviation |advance - 1| of the first (teacher) coordinate. -/
noncomputable def devMeanFst (wp : List (ℤ × ℤ)) : ℝ :=
  mean ((pathDiffs wp).map fun s => |(s.1 : ℝ) - 1|)

/-- timing_deviations.mean(axis=0) second component: mean over steps of
the absolute deviation |advance - 1| of the second (student) coordinate. -/
noncomputable def devMeanSnd (wp : List (ℤ × ℤ)) : ℝ :=
  mean ((pathDiffs wp).map fun s => |(s.2 : ℝ) - 1|)

/-- timing_score local of calculate_performance_score (lines 318-321):
timing_scores = np.exp(-timing_deviations.mean(axis=0)) * 100 (one value per
path coordinate), then timing_score = np.mean(timing_scores). Note the mean
over the steps is taken BEFORE the exponential. -/
noncomputable def timingScore (wp : List (ℤ × ℤ)) : ℝ :=
  (Real.exp (-devMeanFst wp) * 100 + Real.exp (-devMeanSnd wp) * 100) / 2

/-- timing_deviations.mean() (line 356): the mean over the flattened
(step, coordinate) deviation array. -/
noncomputable def timingDeviationAll (wp : List (ℤ × ℤ)) : ℝ :=
  mean (((pathDiffs wp).map fun s => |(s.1 : ℝ) - 1|) ++
        ((pathDiffs wp).map fun s => |(s.2 : ℝ) - 1|))

/-- harmonic_score local of calculate_performance_score (lines 323-332):
100 if np.all(chroma_diffs < 1e-6); otherwise normalize by the maximum
distance and average the clipped scores (100 again if that maximum is not
positive). -/
noncomputable def harmonicScore (chroma_diffs : List ℝ) : ℝ :=
  if ∀ c ∈ chroma_diffs, c < 1e-6 then 100
  else if 0 < npMax chroma_diffs then
    mean (chroma_diffs.map fun c => clip (1 - c / npMax chroma_diffs) 0 1 * 100)
  else 100

/-- Perfect-match short-circuit condition of calculate_performance_score
(line 298): np.all(np.abs(pitch_diffs) < 1e-6) and
np.all(np.abs(chroma_diffs) < 1e-6). -/
def PerfectMatch (pitch_diffs chroma_diffs : List ℝ) : Prop :=
  (∀ d ∈ pitch_diffs, |d| < 1e-6) ∧ (∀ c ∈ chroma_diffs, |c| < 1e-6)

/-- details sub-dictionary of the scores dictionary (lines 353-358). -/
structure ScoreDetails where
  mean_pitch_error_cents : ℝ
  max_pitch_error_cents : ℝ
  timing_deviation : ℝ
  mean_chroma_distance : ℝ

/-- Scores dictionary built by calculate_performance_score (lines 348-359). -/
structure Scores where
  overall_score : ℝ
  pitch_accuracy : ℝ
  timing_accuracy : ℝ
  harmonic_accuracy : ℝ
  details : ScoreDetails

/-- calculate_performance_score (src/lessons/audio_compare.py lines 265-361).
The result is an Option: none models the uncaught ValueError raised by
np.max(pitch_errors) (line 355) when pitch_diffs is empty and the
perfect-match short-circuit did not fire. In the remaining branch pitch_diffs
is non-empty, so no empty-array mean occurs in the pitch fields. -/
noncomputable def calculate_performance_score (pitch_diffs chroma_diffs : List ℝ)
    (wp : List (ℤ × ℤ)) : Option Scores :=
  if PerfectMatch pitch_diffs chroma_diffs then
    some ⟨100, 100, 100, 100, ⟨0, 0, 0, 0⟩⟩
  else if pitch_diffs.isEmpty then
    none
  else
    some ⟨0.7 * pitchAccuracy pitch_diffs + 0.1 * timingScore wp +
            0.2 * harmonicScore chroma_diffs,
          pitchAccuracy pitch_diffs,
          timingScore wp,
          harmonicScore chroma_diffs,
          ⟨mean (pitch_diffs.map fun d => |d|),
           npMax (pitch_diffs.map fun d => |d|),
           timingDeviationAll wp,
           mean chroma_diffs⟩⟩

/-!
Dynamic-time-warping aligner.

The repository delegates the path search to librosa.sequence.dtw
(src/lessons/audio_compare.py line 194), an external library whose code is not
part of this repository. The definitions below are therefore modelled from the
spec (section 4.2).
-/

/-- Modelled from the spec: accumulated-cost matrix of the classic DTW
recurrence delegated to librosa.sequence.dtw (not in src/). D(0,0) = C(0,0);
border cells accumulate along the border; an interior cell adds its own cost
to the minimum of the diagonal, vertical and horizontal predecessors
(unit-step transitions, no skips). -/
def dtwD (C : ℕ → ℕ → ℚ) : ℕ → ℕ → ℚ
  | 0, 0 => C 0 0
  | i + 1, 0 => C (i + 1) 0 + dtwD C i 0
  | 0, j + 1 => C 0 (j + 1) + dtwD C 0 j
  | i + 1, j + 1 =>
    C (i + 1) (j + 1) +
      min (dtwD C i j) (min (dtwD C i (j + 1)) (dtwD C (i + 1) j))

/-- Modelled from the spec: DTW backtracking from cell (i, j) to (0, 0),
with the spec's deterministic tie-break preferring diagonal, then vertical,
then horizontal predecessors. The produced list runs from (i, j) down
to (0, 0). -/
def backtrack (C : ℕ → ℕ → ℚ) : ℕ → ℕ → List (ℕ × ℕ)
  | 0, 0 => [(0, 0)]
  | i + 1, 0 => (i + 1, 0) :: backtrack C i 0
  | 0, j + 1 => (0, j + 1) :: backtrack C 0 j
  | i + 1, j + 1 =>
    (i + 1, j + 1) ::
      (if dtwD C i j ≤ dtwD C i (j + 1) ∧ dtwD C i j ≤ dtwD C (i + 1) j then
        backtrack C i j
      else if dtwD C i (j + 1) ≤ dtwD C (i + 1) j then
        backtrack C i (j + 1)
      else
        backtrack C (i + 1) j)

/-- Modelled from the spec: the alignment path for cost matrix C of size
m × n, in ascending order from (0, 0) to (m - 1, n - 1). -/
def dtwPath (C : ℕ → ℕ → ℚ) (m n : ℕ) : List (ℕ × ℕ) :=
  (backtrack C (m - 1) (n - 1)).reverse

theorem getLast?_cons_of_ne_nil {α : Type} (a : α) {l : List α} (h : l ≠ []) :
    (a :: l).getLast? = l.getLast? := by
  cases l with
  | nil => exact absurd rfl h
  | cons b t => exact List.getLast?_cons_cons

theorem backtrack_ne_nil (C : ℕ → ℕ → ℚ) (i j : ℕ) : backtrack C i j ≠ [] := by
  cases i <;> cases j <;> simp [backtrack]

theorem backtrack_head (C : ℕ → ℕ → ℚ) (i j : ℕ) :
    (backtrack C i j).head? = some (i, j) := by
  cases i <;> cases j <;> simp [backtrack]

theorem backtrack_spec (C : ℕ → ℕ → ℚ) :
    ∀ k i j, i + j ≤ k →
      (backtrack C i j).getLast? = some (0, 0) ∧
      List.Chain' (fun p q : ℕ × ℕ => q.1 ≤ p.1 ∧ q.2 ≤ p.2) (backtrack C i j) := by
  intro k
  induction k with
  | zero =>
    intro i j hij
    have hi : i = 0 := by omega
    have hj : j = 0 := by omega
    subst hi; subst hj
    simp [backtrack]
  | succ k ih =>
    intro i j hij
    match i, j with
    | 0, 0 => simp [backtrack]
    | i + 1, 0 =>
      have h := ih i 0 (by omega)
      refine ⟨?_, ?_⟩
      · rw [backtrack, getLast?_cons_of_ne_nil _ (backtrack_ne_nil C i 0)]
        exact h.1
      · rw [backtrack, List.chain'_cons']
        refine ⟨?_, h.2⟩
        intro y hy
        rw [backtrack_head C i 0] at hy
        cases hy
        exact ⟨by omega, by omega⟩
    | 0, j + 1 =>
      have h := ih 0 j (by omega)
      refine ⟨?_, ?_⟩
      · rw [backtrack, getLast?_cons_of_ne_nil _ (backtrack_ne_nil C 0 j)]
        exact h.1
      · rw [backtrack, List.chain'_cons']
        refine ⟨?_, h.2⟩
        intro y hy
        rw [backtrack_head C 0 j] at hy
        cases hy
        exact ⟨by omega, by omega⟩
    | i + 1, j + 1 =>
      have hd := ih i j (by omega)
      have hv := ih i (j + 1) (by omega)
      have hh := ih (i + 1) j (by omega)
      rw [backtrack]
      by_cases h1 : dtwD C i j ≤ dtwD C i (j + 1) ∧ dtwD C i j ≤ dtwD C (i + 1) j
      · rw [if_pos h1]
        refine ⟨?_, ?_⟩
        · rw [getLast?_cons_of_ne_nil _ (backtrack_ne_nil C i j)]
          exact hd.1
        · rw [List.chain'_cons']
          refine ⟨?_, hd.2⟩
          intro y hy
          rw [backtrack_head C i j] at hy
          cases hy
          exact ⟨by omega, by omega⟩
      · rw [if_neg h1]
        by_cases h2 : dtwD C i (j + 1) ≤ dtwD C (i + 1) j
        · rw [if_pos h2]
          refine ⟨?_, ?_⟩
          · rw [getLast?_cons_of_ne_nil _ (backtrack_ne_nil C i (j + 1))]
            exact hv.1
          · rw [List.chain'_cons']
            refine ⟨?_, hv.2⟩
            intro y hy
            rw [backtrack_head C i (j + 1)] at hy
            cases hy
            exact ⟨by omega, by omega⟩
        · rw [if_neg h2]
          refine ⟨?_, ?_⟩
          · rw [getLast?_cons_of_ne_nil _ (backtrack_ne_nil C (i + 1) j)]
            exact hh.1
          · rw [List.chain'_cons']
            refine ⟨?_, hh.2⟩
            intro y hy
            rw [backtrack_head C (i + 1) j] at hy
            cases hy
            exact ⟨by omega, by omega⟩

/-- Claim C4: for any two non-empty chroma matrices of widths m and n, the
alignment path starts at (0, 0), ends at (m - 1, n - 1), and both coordinates
are non-decreasing from each path entry to the next. -/
theorem dtw_path_boundary_and_monotone (C : ℕ → ℕ → ℚ) (m n : ℕ)
    (hm : 0 < m) (hn : 0 < n) :
    (dtwPath C m n).head? = some (0, 0) ∧
    (dtwPath C m n).getLast? = some (m - 1, n - 1) ∧
    List.Chain' (fun p q : ℕ × ℕ => p.1 ≤ q.1 ∧ p.2 ≤ q.2) (dtwPath C m n) := by
  have hspec := backtrack_spec C (m - 1 + (n - 1)) (m - 1) (n - 1) le_rfl
  refine ⟨?_, ?_, ?_⟩
  · rw [dtwPath, List.head?_reverse]
    exact hspec.1
  · rw [dtwPath, List.getLast?_reverse]
    exact backtrack_head C (m - 1) (n - 1)
  · rw [dtwPath, List.chain'_reverse]
    exact hspec.2

/-- Claim C4 witness: the path theorem applied to a concrete 2 by 3 cost
matrix. -/
theorem dtw_path_boundary_and_monotone_witness :
    (dtwPath (fun _ _ => 1) 2 3).head? = some (0, 0) ∧
    (dtwPath (fun _ _ => 1) 2 3).getLast? = some (2 - 1, 3 - 1) ∧
    List.Chain' (fun p q : ℕ × ℕ => p.1 ≤ q.1 ∧ p.2 ≤ q.2)
      (dtwPath (fun _ _ => 1) 2 3) :=
  dtw_path_boundary_and_monotone (fun _ _ => 1) 2 3 (by decide) (by decide)

/-- Claim C5: with zero retained pitch pairs and chroma distances above the
perfect-match threshold, the scorer does not return a report at all:
np.max over the empty pitch-error array raises a ValueError (modelled as
none), instead of the claimed pitch_accuracy = 0 report. -/
theorem score_no_pitch_pairs_raises :
    calculate_performance_score [] [1 / 2, 1 / 2] [(0, 0), (0, 1)] = none := by
  have hpm : ¬ PerfectMatch [] [1 / 2, 1 / 2] := by
    intro h
    have h2 := h.2 (1 / 2) (by simp)
    rw [show |(1 / 2 : ℝ)| = 1 / 2 from abs_of_nonneg (by norm_num)] at h2
    norm_num at h2
  rw [calculate_performance_score, if_neg hpm]
  rfl

/-- Claim C10: when the retained pitch-difference list is empty and every
chroma distance is below 1e-6, the perfect-match check is vacuously satisfied
on the pitch side and the scorer returns exactly 100.0 for all four score
fields and 0.0 for all detail metrics. -/
theorem score_vacuous_perfect (pitch_diffs chroma_diffs : List ℝ)
    (wp : List (ℤ × ℤ)) (h1 : pitch_diffs = [])
    (h2 : ∀ c ∈ chroma_diffs, |c| < 1e-6) :
    calculate_performance_score pitch_diffs chroma_diffs wp =
      some ⟨100, 100, 100, 100, ⟨0, 0, 0, 0⟩⟩ := by
  have hpm : PerfectMatch pitch_diffs chroma_diffs := by
    subst h1
    exact ⟨by simp, h2⟩
  simp [calculate_performance_score, hpm]

/-- Claim C10 witness: the vacuous perfect-match theorem applied at the empty
pitch list and a single zero chroma distance. -/
theorem score_vacuous_perfect_witness :
    calculate_performance_score [] [0] [(0, 0)] =
      some ⟨100, 100, 100, 100, ⟨0, 0, 0, 0⟩⟩ :=
  score_vacuous_perfect [] [0] [(0, 0)] rfl
    (by intro c hc; rw [List.mem_singleton] at hc; subst hc; norm_num)

/-- Claim C2 counterexample: a comparison whose two per-path-entry harmonic
distances are both 1/2 (all equal, none below 1e-6) reports
harmonic_accuracy = 0, not 100: every distance equals the maximum, so every
clipped per-entry score is 0. -/
theorem harmonic_equal_distances_zero :
    (calculate_performance_score [0] [1 / 2, 1 / 2] [(0, 0), (1, 1)]).map
        Scores.harmonic_accuracy = some 0 ∧ (0 : ℝ) ≠ 100 := by
  refine ⟨?_, by norm_num⟩
  have hpm : ¬ PerfectMatch [0] [1 / 2, 1 / 2] := by
    intro h
    have h2 := h.2 (1 / 2) (by simp)
    rw [show |(1 / 2 : ℝ)| = 1 / 2 from abs_of_nonneg (by norm_num)] at h2
    norm_num at h2
  have hall : ¬ ∀ c ∈ ([1 / 2, 1 / 2] : List ℝ), c < 1e-6 := by
    intro h
    have := h (1 / 2) (by simp)
    norm_num at this
  have hmax : npMax [1 / 2, 1 / 2] = 1 / 2 := by
    simp [npMax]
  have hharm : harmonicScore [1 / 2, 1 / 2] = 0 := by
    rw [harmonicScore, if_neg hall, if_pos (by rw [hmax]; norm_num)]
    rw [hmax]
    norm_num [mean, clip, max_def, min_def]
  have hne : ¬ (([0] : List ℝ).isEmpty = true) := by simp
  rw [calculate_performance_score, if_neg hpm, if_neg hne]
  show some (harmonicScore [1 / 2, 1 / 2]) = some 0
  rw [hharm]

/-- Claim C2 amended: if all per-path-entry harmonic distances are equal and
each is below the 1e-6 threshold (in particular in the all-zero case), any
report the scorer returns has harmonic_accuracy = 100. -/
theorem harmonic_equal_small_hundred (pitch_diffs chroma_diffs : List ℝ)
    (wp : List (ℤ × ℤ))
    (heq : ∀ c ∈ chroma_diffs, ∀ c' ∈ chroma_diffs, c = c')
    (hsm : ∀ c ∈ chroma_diffs, |c| < 1e-6) :
    ∀ s ∈ calculate_performance_score pitch_diffs chroma_diffs wp,
      s.harmonic_accuracy = 100 := by
  intro s hs
  rw [calculate_performance_score] at hs
  by_cases hpm : PerfectMatch pitch_diffs chroma_diffs
  · rw [if_pos hpm, Option.mem_def, Option.some.injEq] at hs
    subst hs
    rfl
  · rw [if_neg hpm] at hs
    by_cases he : pitch_diffs.isEmpty
    · rw [if_pos he] at hs
      simp at hs
    · rw [if_neg he, Option.mem_def, Option.some.injEq] at hs
      subst hs
      show harmonicScore chroma_diffs = 100
      rw [harmonicScore,
        if_pos (fun c hc => lt_of_le_of_lt (le_abs_self c) (hsm c hc))]

/-- Claim C2 amended witness: the theorem applied to two equal, all-zero
chroma distances and the concrete report the scorer returns there. -/
theorem harmonic_equal_small_hundred_witness :
    (⟨100, 100, 100, 100, ⟨0, 0, 0, 0⟩⟩ : Scores).harmonic_accuracy = 100 :=
  harmonic_equal_small_hundred [] [0, 0] [(0, 0)] (by simp)
    (by intro c hc; simp at hc; subst hc; norm_num)
    ⟨100, 100, 100, 100, ⟨0, 0, 0, 0⟩⟩
    (by
      have hpm : PerfectMatch [] [0, 0] :=
        ⟨by simp, by intro c hc; simp at hc; subst hc; norm_num⟩
      rw [Option.mem_def, calculate_performance_score, if_pos hpm])

/-- Claim C8: the alignment and scoring computations are pure functions of
their inputs; two invocations on identical inputs produce identical alignment
paths and identical ScoreReport values (hence equal field by field). -/
theorem align_score_deterministic (Ca Cb : ℕ → ℕ → ℚ) (m₁ m₂ n₁ n₂ : ℕ)
    (pd₁ pd₂ cd₁ cd₂ : List ℝ) (wp₁ wp₂ : List (ℤ × ℤ))
    (hC : Ca = Cb) (hm : m₁ = m₂) (hn : n₁ = n₂)
    (hpd : pd₁ = pd₂) (hcd : cd₁ = cd₂) (hwp : wp₁ = wp₂) :
    dtwPath Ca m₁ n₁ = dtwPath Cb m₂ n₂ ∧
    calculate_performance_score pd₁ cd₁ wp₁ =
      calculate_performance_score pd₂ cd₂ wp₂ := by
  subst hC; subst hm; subst hn; subst hpd; subst hcd; subst hwp
  exact ⟨rfl, rfl⟩

/-- Claim C8 witness: determinism applied at a concrete input pair. -/
theorem align_score_deterministic_witness :
    dtwPath (fun _ _ => 1) 2 2 = dtwPath (fun _ _ => 1) 2 2 ∧
    calculate_performance_score [10] [1 / 2] [(0, 0), (1, 1)] =
      calculate_performance_score [10] [1 / 2] [(0, 0), (1, 1)] :=
  align_score_deterministic (fun _ _ => 1) (fun _ _ => 1) 2 2 2 2
    [10] [10] [1 / 2] [1 / 2] [(0, 0), (1, 1)] [(0, 0), (1, 1)]
    rfl rfl rfl rfl rfl rfl

/-- The timing formula as the claim's words state it (refinement comparison):
the per-step exponential score exp(-|step_advance - 1|) * 100 is computed
first (averaged over the two coordinates of the step) and then averaged over
the consecutive steps. -/
noncomputable def timingSpecFormula (wp : List (ℤ × ℤ)) : ℝ :=
  mean ((pathDiffs wp).map fun s =>
    (Real.exp (-|(s.1 : ℝ) - 1|) * 100 + Real.exp (-|(s.2 : ℝ) - 1|) * 100) / 2)

theorem exp_half_mean_ne :
    Real.exp (-(1 / 2 : ℝ)) * 100 ≠ (100 + Real.exp (-1 : ℝ) * 100) / 2 := by
  intro h
  have hsq : Real.exp (-1 : ℝ) =
      Real.exp (-(1 / 2 : ℝ)) * Real.exp (-(1 / 2 : ℝ)) := by
    rw [← Real.exp_add]
    norm_num
  rw [hsq] at h
  have hz : (Real.exp (-(1 / 2 : ℝ)) - 1) ^ 2 = 0 := by
    ring_nf
    ring_nf at h
    linarith
  have h1 : Real.exp (-(1 / 2 : ℝ)) = 1 := by
    have := sq_eq_zero_iff.mp hz
    linarith
  have hlt : Real.exp (-(1 / 2 : ℝ)) < 1 := by
    rw [show (1 : ℝ) = Real.exp 0 from Real.exp_zero.symm]
    exact Real.exp_lt_exp.mpr (by norm_num)
  linarith

/-- Claim C3 counterexample: on the concrete path [(0,0),(1,1),(3,3)] the
code's timing_accuracy is exp(-1/2) * 100 (exp applied to the mean step
deviation), while the claim's per-step averaging gives (100 + exp(-1)*100)/2;
the two differ. -/
theorem timing_not_per_step_mean :
    (calculate_performance_score [50] [1, 1, 1] [(0, 0), (1, 1), (3, 3)]).map
        Scores.timing_accuracy ≠
      some (timingSpecFormula [(0, 0), (1, 1), (3, 3)]) := by
  have hpm : ¬ PerfectMatch [50] [1, 1, 1] := by
    intro h
    have h2 := h.1 50 (by simp)
    rw [show |(50 : ℝ)| = 50 from abs_of_nonneg (by norm_num)] at h2
    norm_num at h2
  have hne : ¬ (([50] : List ℝ).isEmpty = true) := by simp
  have hpd : pathDiffs [(0, 0), (1, 1), (3, 3)] = [(1, 1), (2, 2)] := by decide
  have hfst : devMeanFst [(0, 0), (1, 1), (3, 3)] = 1 / 2 := by
    rw [devMeanFst, hpd]
    norm_num [mean]
  have hsnd : devMeanSnd [(0, 0), (1, 1), (3, 3)] = 1 / 2 := by
    rw [devMeanSnd, hpd]
    norm_num [mean]
  have hts : timingScore [(0, 0), (1, 1), (3, 3)] = Real.exp (-(1 / 2 : ℝ)) * 100 := by
    rw [timingScore, hfst, hsnd]
    ring
  have hspec : timingSpecFormula [(0, 0), (1, 1), (3, 3)] =
      (100 + Real.exp (-1 : ℝ) * 100) / 2 := by
    rw [timingSpecFormula, hpd]
    norm_num [mean, Real.exp_zero]
  rw [calculate_performance_score, if_neg hpm, if_neg hne]
  show ¬ (some (timingScore [(0, 0), (1, 1), (3, 3)]) =
    some (timingSpecFormula [(0, 0), (1, 1), (3, 3)]))
  rw [Option.some.injEq, hts, hspec]
  exact exp_half_mean_ne

/-- Claim C3 amended: whenever the scorer reaches its general branch, the
reported timing_accuracy equals the mean over the two path coordinates of
exp(-(mean over consecutive steps of |advance - 1|)) * 100: the deviations
are averaged over the steps first and the exponential is applied to that
average (not per step). -/
theorem timing_exp_of_mean_deviation (pitch_diffs chroma_diffs : List ℝ)
    (wp : List (ℤ × ℤ)) (hpm : ¬ PerfectMatch pitch_diffs chroma_diffs)
    (hne : pitch_diffs ≠ []) :
    (calculate_performance_score pitch_diffs chroma_diffs wp).map
        Scores.timing_accuracy =
      some ((Real.exp (-(mean ((pathDiffs wp).map fun s => |(s.1 : ℝ) - 1|))) * 100 +
             Real.exp (-(mean ((pathDiffs wp).map fun s => |(s.2 : ℝ) - 1|))) * 100) / 2) := by
  have hne' : ¬ (pitch_diffs.isEmpty = true) := by
    rw [List.isEmpty_iff]
    exact hne
  rw [calculate_performance_score, if_neg hpm, if_neg hne']
  rfl

/-- Claim C3 amended witness: the timing theorem applied at a concrete
comparison. -/
theorem timing_exp_of_mean_deviation_witness :
    (calculate_performance_score [50] [1] [(0, 0), (1, 1)]).map
        Scores.timing_accuracy =
      some ((Real.exp (-(mean ((pathDiffs [(0, 0), (1, 1)]).map
              fun s => |(s.1 : ℝ) - 1|))) * 100 +
             Real.exp (-(mean ((pathDiffs [(0, 0), (1, 1)]).map
              fun s => |(s.2 : ℝ) - 1|))) * 100) / 2) :=
  timing_exp_of_mean_deviation [50] [1] [(0, 0), (1, 1)]
    (by
      intro h
      have h2 := h.1 50 (by simp)
      rw [show |(50 : ℝ)| = 50 from abs_of_nonneg (by norm_num)] at h2
      norm_num at h2)
    (by simp)

/-- Claim C6 counterexample: for the comparison with one retained pitch
difference of 1e-7 cents and a zero chroma distance, the perfect-match
short-circuit reports pitch_accuracy = 100 exactly, while the arithmetic mean
of the per-pair scores is 100 - 1e-7; so pitch_accuracy does not always equal
that mean. -/
theorem pitch_not_always_mean :
    (calculate_performance_score [1e-7] [0] [(0, 0), (1, 1)]).map
        Scores.pitch_accuracy = some 100 ∧
      mean ([(1e-7 : ℝ)].map pitchScore) ≠ 100 := by
  constructor
  · have hpm : PerfectMatch [1e-7] [0] := by
      constructor
      · intro d hd
        rw [List.mem_singleton] at hd
        subst hd
        rw [show |(1e-7 : ℝ)| = 1e-7 from abs_of_nonneg (by norm_num)]
        norm_num
      · intro c hc
        rw [List.mem_singleton] at hc
        subst hc
        norm_num
    rw [calculate_performance_score, if_pos hpm]
    rfl
  · have hps : pitchScore (1e-7 : ℝ) = (1 - 1e-9) * 100 := by
      rw [pitchScore, show |(1e-7 : ℝ)| = 1e-7 from abs_of_nonneg (by norm_num),
        clip, max_eq_left (by norm_num), min_eq_left (by norm_num)]
      norm_num
    rw [List.map_singleton, hps]
    norm_num [mean]

/-- Claim C6 amended: outside the perfect-match short-circuit (with at least
one retained pair, so a report is produced), pitch_accuracy equals the
arithmetic mean of the per-pair scores clip(1 - |d| / 100, 0, 1) * 100, and
any pair whose cents values (via hz_to_cents, i.e. 1200 * log2(f / 440) +
6900) differ by at least 100 in absolute value contributes a per-pair score
of exactly 0. -/
theorem pitch_mean_and_semitone_miss (pitch_diffs chroma_diffs : List ℝ)
    (wp : List (ℤ × ℤ)) (hpm : ¬ PerfectMatch pitch_diffs chroma_diffs)
    (hne : pitch_diffs ≠ []) :
    (calculate_performance_score pitch_diffs chroma_diffs wp).map
        Scores.pitch_accuracy = some (mean (pitch_diffs.map pitchScore)) ∧
    ∀ ft fs : ℝ, 100 ≤ |hz_to_cents fs - hz_to_cents ft| →
      pitchScore (hz_to_cents fs - hz_to_cents ft) = 0 := by
  constructor
  · have hne' : ¬ (pitch_diffs.isEmpty = true) := by
      rw [List.isEmpty_iff]
      exact hne
    rw [calculate_performance_score, if_neg hpm, if_neg hne']
    rfl
  · intro ft fs h
    rw [pitchScore, clip]
    have h1 : 1 - |hz_to_cents fs - hz_to_cents ft| / 100 ≤ 0 := by linarith
    rw [max_eq_right h1, min_eq_left (by norm_num)]
    ring

/-- Claim C6 amended witness: the pitch theorem applied at a concrete
comparison. -/
theorem pitch_mean_and_semitone_miss_witness :
    (calculate_performance_score [50] [1] [(0, 0), (1, 1)]).map
        Scores.pitch_accuracy = some (mean ([(50 : ℝ)].map pitchScore)) :=
  And.left <| pitch_mean_and_semitone_miss [50] [1] [(0, 0), (1, 1)]
    (by
      intro h
      have h2 := h.1 50 (by simp)
      rw [show |(50 : ℝ)| = 50 from abs_of_nonneg (by norm_num)] at h2
      norm_num at h2)
    (by simp)

/-!
Cosine cost matrix (cosine_distance_matrix, src/lessons/audio_compare.py
lines 139-185), expressed entrywise for one teacher column x and one student
column y.
-/

/-- Dot product of two columns (np.dot restricted to one entry of X.T @ Y). -/
noncomputable def dotList (x y : List ℝ) : ℝ := (List.zipWith (· * ·) x y).sum

/-- Column norm np.sqrt(np.sum(X * X, axis=0)) restricted to one column. -/
noncomputable def colNorm (x : List ℝ) : ℝ := Real.sqrt (x.map fun v => v * v).sum

/-- Entry (i, j) of the matrix computed by cosine_distance_matrix: the columns
are first divided by their epsilon-floored norms (lines 176-177) and then the
dot product of the normalized columns is divided by the product of the floored
norms AGAIN (line 180), before 1 - clip(., -1, 1) (line 183). -/
noncomputable def cosineDistanceEntry (x y : List ℝ) : ℝ :=
  1 - clip (dotList (x.map fun v => v / (colNorm x + 1e-8))
              (y.map fun v => v / (colNorm y + 1e-8)) /
            ((colNorm x + 1e-8) * (colNorm y + 1e-8))) (-1) 1

/-- The cost formula as the spec's words state it (refinement comparison):
1 - clip(cosine_similarity, -1, 1), where the similarity divides the raw dot
product by the product of the epsilon-floored norms once. -/
noncomputable def cosineDistanceSpecEntry (x y : List ℝ) : ℝ :=
  1 - clip (dotList x y / ((colNorm x + 1e-8) * (colNorm y + 1e-8))) (-1) 1

/-- A unit-norm 12-bin chroma column: (3/5, 4/5, 0, ..., 0). -/
noncomputable def unitCol : List ℝ := [3 / 5, 4 / 5, 0, 0, 0, 0, 0, 0, 0, 0, 0, 0]

/-- Claim C1: the aligner's cost entry is not 1 - clip(cosine_similarity, -1, 1)
with epsilon-floored norms. On the unit-norm chroma column (3/5, 4/5, 0, ..., 0)
paired with itself the code's double division gives 1 - 1/(1 + 1e-8)^4 while
the claimed formula gives 1 - 1/(1 + 1e-8)^2, and these differ. -/
theorem cosine_cost_double_division :
    cosineDistanceEntry unitCol unitCol ≠ cosineDistanceSpecEntry unitCol unitCol := by
  have hs : ((unitCol.map fun v => v * v).sum : ℝ) = 1 := by
    rw [unitCol]
    norm_num
  have hnorm : colNorm unitCol = 1 := by
    rw [colNorm, hs, Real.sqrt_one]
  have hdot : dotList unitCol unitCol = 1 := by
    rw [dotList, unitCol]
    norm_num
  have hdot2 : dotList (unitCol.map fun v => v / (1 + 1e-8))
      (unitCol.map fun v => v / (1 + 1e-8)) = 1 / (1 + 1e-8) ^ 2 := by
    rw [dotList, unitCol]
    norm_num
  simp only [cosineDistanceEntry, cosineDistanceSpecEntry]
  rw [hnorm, hdot, hdot2]
  norm_num [clip, max_def, min_def]

/-!
Shape of the value compare_audio returns to its caller: the scores dictionary
of calculate_performance_score (lines 348-359) with the results_dir string
added at line 487.
-/

/-- JSON-like value: numeric leaf, string leaf, or sub-map. -/
inductive JValue where
  | num : ℝ → JValue
  | str : String → JValue
  | obj : List (String × JValue) → JValue

/-- True exactly on numeric leaves. -/
def JValue.isNum : JValue → Bool
  | .num _ => true
  | _ => false

/-- True exactly on string leaves. -/
def JValue.isStr : JValue → Bool
  | .str _ => true
  | _ => false

/-- True exactly on sub-maps all of whose values are numeric leaves. -/
def JValue.isNumObj : JValue → Bool
  | .obj l => l.all fun kv => kv.2.isNum
  | _ => false

/-- The dictionary compare_audio returns (src/lessons/audio_compare.py lines
348-359 and 486-488): the four score fields, the details sub-map, and the
results_dir string added just before returning. -/
def compareAudioDict (s : Scores) (results_dir : String) :
    List (String × JValue) :=
  [("overall_score", .num s.overall_score),
   ("pitch_accuracy", .num s.pitch_accuracy),
   ("timing_accuracy", .num s.timing_accuracy),
   ("harmonic_accuracy", .num s.harmonic_accuracy),
   ("details", .obj
     [("mean_pitch_error_cents", .num s.details.mean_pitch_error_cents),
      ("max_pitch_error_cents", .num s.details.max_pitch_error_cents),
      ("timing_deviation", .num s.details.timing_deviation),
      ("mean_chroma_distance", .num s.details.mean_chroma_distance)]),
   ("results_dir", .str results_dir)]

/-- Predicate of claim C9: every value is numeric, except that the key
"details" may hold a sub-map of numeric values. -/
def FlatNumeric (kvs : List (String × JValue)) : Prop :=
  ∀ kv ∈ kvs, kv.2.isNum = true ∨ (kv.1 = "details" ∧ kv.2.isNumObj = true)

/-- Claim C9 counterexample: the structure compare_audio returns carries the
string value results_dir, so it does not contain only numeric values plus the
details sub-map. -/
theorem compare_audio_dict_not_flat_numeric :
    ¬ FlatNumeric (compareAudioDict ⟨0, 0, 0, 0, ⟨0, 0, 0, 0⟩⟩ "comparison_results") := by
  intro h
  have hmem : ("results_dir", JValue.str "comparison_results") ∈
      compareAudioDict ⟨0, 0, 0, 0, ⟨0, 0, 0, 0⟩⟩ "comparison_results" := by
    simp [compareAudioDict]
  rcases h _ hmem with h1 | ⟨h2, _⟩
  · simp [JValue.isNum] at h1
  · exact absurd h2 (by decide)

/-- Claim C9 amended: every entry of the returned structure is a numeric
value, or the details key holding a sub-map of numeric values, or the
results_dir key holding the report-directory string; no other value kinds or
nesting occur. -/
theorem compare_audio_dict_shape (s : Scores) (dir : String) :
    ∀ kv ∈ compareAudioDict s dir,
      kv.2.isNum = true ∨ (kv.1 = "details" ∧ kv.2.isNumObj = true) ∨
        (kv.1 = "results_dir" ∧ kv.2.isStr = true) := by
  intro kv hkv
  simp only [compareAudioDict, List.mem_cons, List.mem_singleton,
    List.not_mem_nil, or_false] at hkv
  rcases hkv with h | h | h | h | h | h
  · subst h; exact Or.inl rfl
  · subst h; exact Or.inl rfl
  · subst h; exact Or.inl rfl
  · subst h; exact Or.inl rfl
  · subst h; exact Or.inr (Or.inl ⟨rfl, rfl⟩)
  · subst h; exact Or.inr (Or.inr ⟨rfl, rfl⟩)

/-- Claim C9 amended witness: the shape theorem applied to a concrete entry
of a concrete returned dictionary. -/
theorem compare_audio_dict_shape_witness :
    (JValue.num (0 : ℝ)).isNum = true ∨
      ((("overall_score" : String) = "details") ∧
        (JValue.num (0 : ℝ)).isNumObj = true) ∨
      ((("overall_score" : String) = "results_dir") ∧
        (JValue.num (0 : ℝ)).isStr = true) :=
  compare_audio_dict_shape ⟨0, 0, 0, 0, ⟨0, 0, 0, 0⟩⟩ "d"
    ("overall_score", JValue.num 0) (by simp [compareAudioDict])
